import Mathlib

/-!
Verification of the expense reimbursement core: the role-gated approval
state machine, the single-item lifecycle routes, the bulk approval
operation and the summary aggregation engine.  Each definition is a
shallow embedding of the corresponding TypeScript source: the Prisma
store is modelled as explicit lists of records, route handlers become
functions from a store (plus the already-authenticated actor and the
current time) to a result paired with the updated store, and JavaScript
number arithmetic is modelled as IEEE-754 binary64 rounding over exact
rationals.
-/

set_option allowUnsafeReducibility true in
attribute [semireducible] Rat.add Rat.sub Rat.mul

namespace Reimbursement

/-! ## IEEE-754 binary64 value model

JavaScript numbers are IEEE-754 binary64.  A finite double is an exact
rational, and a JavaScript arithmetic operation rounds the exact result
to the nearest double, ties to even.  `fp64round` performs that rounding
on exact rationals, with the significand width of 53 bits; the program's
amounts are positive decimals well inside the normal range, so overflow
and subnormals never arise and are not modelled. -/

/-- Floor of the base-2 logarithm of a positive natural, by structural
recursion on a fuel bound so that the kernel can evaluate it. -/
def log2fuel : Nat → Nat → Nat
  | 0, _ => 0
  | fuel + 1, n => if n ≥ 2 then log2fuel fuel (n / 2) + 1 else 0

/-- Floor of the base-2 logarithm of a positive natural. -/
def natLog2 (n : Nat) : Nat := log2fuel n n

/-- Floor of the base-2 logarithm of the positive rational `n / d`. -/
def ratFloorLog2 (n d : Nat) : Int :=
  let a := natLog2 n
  let b := natLog2 d
  if b ≤ a then
    (if 2 ^ (a - b) * d ≤ n then (a - b : Int) else (a - b : Int) - 1)
  else
    (if d ≤ n * 2 ^ (b - a) then -((b - a : Int)) else -((b - a : Int)) - 1)

/-- Round the rational `num / den` (`den > 0`) to the nearest integer,
ties to the even neighbour. -/
def roundHalfEven (num : Int) (den : Nat) : Int :=
  let q := num.fdiv den
  let r := num - q * den
  if 2 * r < den then q
  else if (den : Int) < 2 * r then q + 1
  else if q % 2 = 0 then q else q + 1

/-- Round an exact rational to the nearest IEEE-754 binary64 value
(normal range), ties to even: the significand is the rational scaled
into `[2^52, 2^53)` and rounded half-to-even. -/
def fp64round (q : ℚ) : ℚ :=
  if q = 0 then 0
  else
    let e : Int := ratFloorLog2 q.num.natAbs q.den - 52
    let nd : Int × Nat :=
      if 0 ≤ e then (q.num, q.den * 2 ^ e.toNat) else (q.num * 2 ^ (-e).toNat, q.den)
    let m := roundHalfEven nd.1 nd.2
    if 0 ≤ e then ((m * 2 ^ e.toNat : Int) : ℚ) else mkRat m (2 ^ (-e).toNat)

/-- JavaScript `+` on two doubles: the exact sum rounded back to a
double. -/
def jsAdd (a b : ℚ) : ℚ := fp64round (a + b)

/-! ## Calendar model

JavaScript dates are modelled as integer timestamps in milliseconds.
A calendar day is the floor quotient by the day length, and the weekday
follows from the epoch day (1970-01-01) being a Thursday (weekday 4,
with Sunday = 0).  `setHours(0,0,0,0)` is truncation to the start of the
day. -/

/-- Milliseconds per day. -/
def msPerDay : Int := 86400000

/-- The calendar day index of a timestamp. -/
def dayIndex (t : Int) : Int := t.fdiv msPerDay

/-- `Date.getDay()`: 0 = Sunday, ..., 6 = Saturday. -/
def dayOfWeek (t : Int) : Int := (dayIndex t + 4) % 7

/-- Roles of `@prisma/client`. -/
inductive Role where
  | EMPLOYEE
  | MANAGER
deriving DecidableEq, Repr

/-- Expense statuses of `@prisma/client`. -/
inductive ExpenseStatus where
  | PENDING
  | APPROVED
  | REJECTED
  | REIMBURSED
deriving DecidableEq, Repr

/-- Summary trigger types of `@prisma/client`. -/
inductive SummaryTriggerType where
  | MANUAL
  | SUBMISSION
  | SCHEDULED
deriving DecidableEq, Repr

/-- src/lib/permissions.ts, `isManager`. -/
def isManager (role : Role) : Bool :=
  role = Role.MANAGER

/-- src/lib/permissions.ts, `isEmployee`. -/
def isEmployee (role : Role) : Bool :=
  role = Role.EMPLOYEE

/-- src/lib/permissions.ts, `StatusTransitionConfig`. -/
structure StatusTransitionConfig where
  allowedNextStatuses : List ExpenseStatus
  requiredRole : Option Role
deriving DecidableEq, Repr

/-- src/lib/permissions.ts, the `StatusTransitions` record (an
enum-keyed table, embedded as a function on the key enum). -/
def StatusTransitions : ExpenseStatus → StatusTransitionConfig
  | ExpenseStatus.PENDING =>
      { allowedNextStatuses := [ExpenseStatus.APPROVED, ExpenseStatus.REJECTED],
        requiredRole := some Role.MANAGER }
  | ExpenseStatus.APPROVED =>
      { allowedNextStatuses := [ExpenseStatus.REIMBURSED],
        requiredRole := some Role.MANAGER }
  | ExpenseStatus.REJECTED =>
      { allowedNextStatuses := [], requiredRole := none }
  | ExpenseStatus.REIMBURSED =>
      { allowedNextStatuses := [], requiredRole := none }

/-- src/lib/permissions.ts, `canTransitionTo`: first the membership test
on `allowedNextStatuses`, then the required-role test (skipped when
`requiredRole` is null). -/
def canTransitionTo (currentStatus newStatus : ExpenseStatus) (userRole : Role) : Bool :=
  let transition := StatusTransitions currentStatus
  if ¬ transition.allowedNextStatuses.contains newStatus then
    false
  else if transition.requiredRole.any (fun r => userRole ≠ r) then
    false
  else
    true

/-! ## Data model

The Prisma store is modelled as lists of records.  Fields the claims
never touch (image URLs, LINE ids, timestamps of user rows) are kept
only where a claim's source reads them.  `Expense.amount` is a `Float`
column, so its value is the exact rational of a binary64 double;
`paidAmount` and `Summary.totalAmount` are decimal columns holding the
exact value handed to the persistence layer. -/

/-- A row of the `User` table (the fields the core reads). -/
structure User where
  id : String
  displayName : Option String := none
  pictureUrl : Option String := none
deriving DecidableEq, Repr

/-- A row of the `Expense` table. -/
structure Expense where
  id : String
  userId : String
  description : String
  amount : ℚ
  date : Int
  status : ExpenseStatus
  approverId : Option String := none
  approvalDate : Option Int := none
  rejectionReason : Option String := none
  paidDate : Option Int := none
  paidAmount : Option ℚ := none
  createdAt : Int := 0
deriving DecidableEq, Repr

/-- src/lib/summary-service.ts, `ExpenseSnapshot`. -/
structure ExpenseSnapshot where
  id : String
  description : String
  amount : ℚ
  date : Int
  status : ExpenseStatus
deriving DecidableEq, Repr

/-- A row of the `Summary` table (the database also assigns an opaque
`id` and a `createdAt` timestamp, which no claim reads). -/
structure Summary where
  userId : String
  startDate : Int
  endDate : Int
  totalAmount : ℚ
  expenseCount : Nat
  expenses : List ExpenseSnapshot
  triggerType : SummaryTriggerType
deriving DecidableEq, Repr

/-- The transactional relational store. -/
structure Store where
  users : List User
  expenses : List Expense
  summaries : List Summary
deriving DecidableEq, Repr

/-- src/lib/summary-service.ts, `GenerateSummaryOptions`. -/
structure GenerateSummaryOptions where
  userId : String
  triggerType : SummaryTriggerType
  startDate : Option Int := none
  endDate : Option Int := none
deriving DecidableEq, Repr

/-- src/lib/summary-service.ts, `getLastSummaryDate`: from today's
weekday, the number of days to step back to the start of the reporting
window. -/
def daysBack (dayOfWeek : Int) : Int :=
  if dayOfWeek = 2 then 4
  else if dayOfWeek = 5 then 3
  else if dayOfWeek < 2 then dayOfWeek + 2
  else if dayOfWeek < 5 then dayOfWeek - 2
  else 1

/-- src/lib/summary-service.ts, `getLastSummaryDate`: step back
`daysBack` days from today and normalize to midnight
(`setHours(0,0,0,0)`). -/
def getLastSummaryDate (now : Int) : Int :=
  (dayIndex now - daysBack (dayOfWeek now)) * msPerDay

/-- src/lib/summary-service.ts, `generateUserSummary`, the `findMany`
filter: the user's PENDING expenses with `createdAt` in
`[startDate, endDate]`. -/
def pendingInRange (store : Store) (userId : String) (startDate endDate : Int) :
    List Expense :=
  store.expenses.filter fun e =>
    e.userId = userId ∧ e.status = ExpenseStatus.PENDING ∧
      startDate ≤ e.createdAt ∧ e.createdAt ≤ endDate

/-- src/lib/summary-service.ts, `generateUserSummary`, the expense
query: the PENDING expenses in range, with the `orderBy date desc`
modelled as a stable sort by descending expense date. -/
def selectedExpenses (store : Store) (userId : String)
    (startDate endDate : Int) : List Expense :=
  (pendingInRange store userId startDate endDate).insertionSort
    fun a b => b.date ≤ a.date

/-- src/lib/summary-service.ts, `generateUserSummary`, the total:
`expenses.reduce((sum, exp) => sum + exp.amount, 0)` over JavaScript
doubles. -/
def summaryTotal (expenses : List Expense) : ℚ :=
  expenses.foldl (fun sum exp => jsAdd sum exp.amount) 0

/-- src/lib/summary-service.ts, `generateUserSummary`, the snapshots:
id, description, amount, date and status at capture time. -/
def summarySnapshots (expenses : List Expense) : List ExpenseSnapshot :=
  expenses.map fun exp =>
    { id := exp.id, description := exp.description, amount := exp.amount,
      date := exp.date, status := exp.status }

/-- src/lib/summary-service.ts, `generateUserSummary`, the row handed to
`prisma.summary.create`. -/
def builtSummary (options : GenerateSummaryOptions)
    (startDate endDate : Int) (expenses : List Expense) : Summary :=
  { userId := options.userId, startDate := startDate, endDate := endDate,
    totalAmount := summaryTotal expenses,
    expenseCount := expenses.length,
    expenses := summarySnapshots expenses,
    triggerType := options.triggerType }

/-- src/lib/summary-service.ts, `generateUserSummary`, the
`summaryStartDate` binding: the caller's start date, defaulted through
`getLastSummaryDate`. -/
def resolvedStart (now : Int) (options : GenerateSummaryOptions) : Int :=
  options.startDate.getD (getLastSummaryDate now)

/-- src/lib/summary-service.ts, `generateUserSummary`, the
`summaryEndDate` binding: the caller's end date, defaulted to now. -/
def resolvedEnd (now : Int) (options : GenerateSummaryOptions) : Int :=
  options.endDate.getD now

/-- src/lib/summary-service.ts, `generateUserSummary`.  Returns the
created summary (or null) together with the store after the call: user
lookup, the expense query, the null result on an empty selection, and
otherwise the insertion of exactly one `Summary` row. -/
def generateUserSummary (store : Store) (now : Int)
    (options : GenerateSummaryOptions) : Option Summary × Store :=
  let summaryStartDate := resolvedStart now options
  let summaryEndDate := resolvedEnd now options
  match store.users.find? (fun u => u.id = options.userId) with
  | none => (none, store)
  | some _ =>
    let expenses := selectedExpenses store options.userId summaryStartDate
      summaryEndDate
    if expenses = [] then (none, store)
    else
      let summary := builtSummary options summaryStartDate summaryEndDate expenses
      (some summary, { store with summaries := store.summaries ++ [summary] })

/-- src/lib/summary-service.ts, `generateAllPendingSummaries`, the user
query: every user with at least one PENDING expense — an existence
filter with no date condition. -/
def usersWithPending (store : Store) : List User :=
  store.users.filter fun u =>
    store.expenses.any fun e =>
      e.userId = u.id ∧ e.status = ExpenseStatus.PENDING

/-- src/lib/summary-service.ts, `generateAllPendingSummaries`, the loop
body: one `generateUserSummary` call for the user, keeping the result
when it is non-null. -/
def collectStep (now : Int) (triggerType : SummaryTriggerType)
    (acc : List Summary × Store) (u : User) : List Summary × Store :=
  match generateUserSummary acc.2 now
      { userId := u.id, triggerType := triggerType } with
  | (some summary, st) => (acc.1 ++ [summary], st)
  | (none, st) => (acc.1, st)

/-- src/lib/summary-service.ts, `generateAllPendingSummaries`: the users
with pending expenses, then the sequential per-user loop. -/
def generateAllPendingSummaries (store : Store) (now : Int)
    (triggerType : SummaryTriggerType := SummaryTriggerType.SCHEDULED) :
    List Summary × Store :=
  (usersWithPending store).foldl (collectStep now triggerType)
    (([] : List Summary), store)

/-! ## Lifecycle routes

Each route handler is modelled from the point where the CSRF and session
checks have passed: the caller supplies the authenticated actor's id and
role.  A handler returns its outcome and the store after the call. -/

/-- Outcome of a single-expense route, keyed to the HTTP responses of
the handlers: 403 Forbidden, 404 Not Found, the 400 transition
rejection, the 400 validation rejection, and 200 with the updated
record. -/
inductive RouteResult where
  | forbidden
  | notFound
  | illegalTransition
  | validationError
  | ok (updated : Expense)
deriving DecidableEq, Repr

/-- `prisma.expense.update`: replace the expense row bearing the given
id. -/
def updateExpense (store : Store) (updated : Expense) : Store :=
  { store with expenses := store.expenses.map fun e =>
      if e.id = updated.id then updated else e }

/-- src/app/api/expenses/[id]/approve/route.ts, `POST`: manager gate,
fetch, `canTransitionTo` gate towards APPROVED, then the update stamping
status, approver and approval date. -/
def approvePOST (store : Store) (actorId : String) (actorRole : Role)
    (id : String) (now : Int) : RouteResult × Store :=
  if ¬ isManager actorRole then (RouteResult.forbidden, store)
  else
    match store.expenses.find? (fun e => e.id = id) with
    | none => (RouteResult.notFound, store)
    | some expense =>
      if ¬ canTransitionTo expense.status ExpenseStatus.APPROVED actorRole then
        (RouteResult.illegalTransition, store)
      else
        let updated := { expense with
          status := ExpenseStatus.APPROVED,
          approverId := some actorId,
          approvalDate := some now }
        (RouteResult.ok updated, updateExpense store updated)

/-- Modelled from the spec: the reject route
(src/app/api/expenses/[id]/reject/route.ts) is not under src, only its
unit tests are.  Per the spec, Reject requires a non-empty reason of at
most 500 characters, validated before the transition check; it shares
the Approve gate shape with target REJECTED and stores the rejection
reason while stamping approver and approval date. -/
def rejectPOST (store : Store) (actorId : String) (actorRole : Role)
    (id : String) (reason : String) (now : Int) : RouteResult × Store :=
  if ¬ isManager actorRole then (RouteResult.forbidden, store)
  else if reason.length = 0 ∨ reason.length > 500 then
    (RouteResult.validationError, store)
  else
    match store.expenses.find? (fun e => e.id = id) with
    | none => (RouteResult.notFound, store)
    | some expense =>
      if ¬ canTransitionTo expense.status ExpenseStatus.REJECTED actorRole then
        (RouteResult.illegalTransition, store)
      else
        let updated := { expense with
          status := ExpenseStatus.REJECTED,
          rejectionReason := some reason,
          approverId := some actorId,
          approvalDate := some now }
        (RouteResult.ok updated, updateExpense store updated)

/-- Modelled from the spec: `paymentSchema` lives in a validations
module that is not under src (only its callers and tests are).  Per the
spec, `paidAmount` is optional but must be positive when supplied and
`paidDate` is an optional date; in this embedding dates are integers, so
only the amount can fail validation. -/
def paymentValid (paidAmount : Option ℚ) : Bool :=
  paidAmount.all fun a => 0 < a

/-- src/app/api/expenses/[id]/pay/route.ts, `POST`: manager gate, body
validation through `paymentSchema`, fetch, `canTransitionTo` gate
towards REIMBURSED, then the update setting status REIMBURSED,
`paidDate` to the supplied date or now, and `paidAmount` to the supplied
amount or the expense's original amount. -/
def payPOST (store : Store) (actorId : String) (actorRole : Role)
    (id : String) (paidAmount : Option ℚ) (paidDate : Option Int)
    (now : Int) : RouteResult × Store :=
  if ¬ isManager actorRole then (RouteResult.forbidden, store)
  else if ¬ paymentValid paidAmount then (RouteResult.validationError, store)
  else
    match store.expenses.find? (fun e => e.id = id) with
    | none => (RouteResult.notFound, store)
    | some expense =>
      if ¬ canTransitionTo expense.status ExpenseStatus.REIMBURSED actorRole then
        (RouteResult.illegalTransition, store)
      else
        let updated := { expense with
          status := ExpenseStatus.REIMBURSED,
          paidDate := some (paidDate.getD now),
          paidAmount := some (paidAmount.getD expense.amount) }
        (RouteResult.ok updated, updateExpense store updated)

/-! ## Bulk approval route -/

/-- Outcome of the bulk approval route: the 400 shape rejection, the 400
size rejection, 404 with the missing ids, the 400 invalid-state
rejection with the `failed` ids, and 200 with the updated row count. -/
inductive BulkResult where
  | invalidRequest
  | tooManyItems
  | notFound (missing : List String)
  | invalidState (failed : List String)
  | ok (approved : Nat)
deriving DecidableEq, Repr

/-- src/app/api/expenses/bulk-approve route, the validation fetch:
`findMany` of the expenses whose id is among the requested ids. -/
def bulkFetched (store : Store) (ids : List String) : List Expense :=
  store.expenses.filter fun e => ids.contains e.id

/-- src/app/api/expenses/bulk-approve route, `notFound`: the requested
ids absent from the fetched result set. -/
def bulkNotFound (store : Store) (ids : List String) : List String :=
  ids.filter fun id => ¬ (bulkFetched store ids).any fun e => e.id = id

/-- src/app/api/expenses/bulk-approve route, `notPending`: the fetched
records whose status is not PENDING. -/
def bulkNotPending (store : Store) (ids : List String) : List Expense :=
  (bulkFetched store ids).filter fun e => e.status ≠ ExpenseStatus.PENDING

/-- src/app/api/expenses/bulk-approve route, `POST`, from the point
where CSRF, session and the manager gate have passed: the shape check,
the size check, the two validation checks in order, then the single
conditional `updateMany` (`id IN ids AND status = PENDING`) stamping
approver and approval date, answering with the affected row count. -/
def bulkApprovePOST (store : Store) (actorId : String) (ids : List String)
    (now : Int) : BulkResult × Store :=
  if ids = [] then (BulkResult.invalidRequest, store)
  else if ids.length > 100 then (BulkResult.tooManyItems, store)
  else if bulkNotFound store ids ≠ [] then
    (BulkResult.notFound (bulkNotFound store ids), store)
  else if bulkNotPending store ids ≠ [] then
    (BulkResult.invalidState ((bulkNotPending store ids).map fun e => e.id), store)
  else
    let hit : Expense → Bool := fun e =>
      ids.contains e.id ∧ e.status = ExpenseStatus.PENDING
    let stamp : Expense → Expense := fun e =>
      if hit e then
        { e with
          status := ExpenseStatus.APPROVED,
          approverId := some actorId,
          approvalDate := some now }
      else e
    let updatedStore := { store with expenses := store.expenses.map stamp }
    (BulkResult.ok (store.expenses.filter hit).length, updatedStore)

/-! ## Concrete fixtures

Small concrete stores used to evaluate the embedding on explicit
inputs.  Amounts are the exact rationals of the doubles the database
holds: `100.50` and `200.25` are exactly representable; the decimals
`0.1` and `0.2` are not, so `parseFloat` stores the nearest doubles
`fp64round (1/10)` and `fp64round (1/5)`. -/

/-- Two PENDING expenses of 100.50 and 200.25 for one user. -/
def exactStore : Store :=
  { users := [{ id := "u1" }],
    expenses :=
      [{ id := "e1", userId := "u1", description := "d1",
         amount := mkRat 201 2, date := 1,
         status := ExpenseStatus.PENDING, createdAt := 5 },
       { id := "e2", userId := "u1", description := "d2",
         amount := mkRat 801 4, date := 0,
         status := ExpenseStatus.PENDING, createdAt := 5 }],
    summaries := [] }

/-- A fixed window around the `exactStore` expenses. -/
def exactOptions : GenerateSummaryOptions :=
  { userId := "u1", triggerType := SummaryTriggerType.MANUAL,
    startDate := some 0, endDate := some 10 }

/-- Two PENDING expenses whose amounts were entered as 0.1 and 0.2. -/
def driftStore : Store :=
  { users := [{ id := "u1" }],
    expenses :=
      [{ id := "e1", userId := "u1", description := "d1",
         amount := fp64round (mkRat 1 10), date := 1,
         status := ExpenseStatus.PENDING, createdAt := 5 },
       { id := "e2", userId := "u1", description := "d2",
         amount := fp64round (mkRat 1 5), date := 0,
         status := ExpenseStatus.PENDING, createdAt := 5 }],
    summaries := [] }

/-- A fixed window around the `driftStore` expenses. -/
def driftOptions : GenerateSummaryOptions :=
  { userId := "u1", triggerType := SummaryTriggerType.MANUAL,
    startDate := some 0, endDate := some 10 }

/-- 101 requested ids, all absent from an empty store. -/
def overLimitIds : List String := List.replicate 101 "x"

/-- A store holding a single PENDING expense "a". -/
def wStoreA : Store :=
  { users := [],
    expenses :=
      [{ id := "a", userId := "u1", description := "d",
         amount := 1, date := 0, status := ExpenseStatus.PENDING }],
    summaries := [] }

/-- A store holding PENDING "a" and APPROVED "b". -/
def wStoreB : Store :=
  { users := [],
    expenses :=
      [{ id := "a", userId := "u1", description := "d",
         amount := 1, date := 0, status := ExpenseStatus.PENDING },
       { id := "b", userId := "u1", description := "d",
         amount := 1, date := 0, status := ExpenseStatus.APPROVED }],
    summaries := [] }

/-- An already-APPROVED expense "a". -/
def approvedExp : Expense :=
  { id := "a", userId := "u1", description := "d", amount := 1, date := 0,
    status := ExpenseStatus.APPROVED, approverId := some "m",
    approvalDate := some 0 }

/-- A store holding only the APPROVED expense `approvedExp`. -/
def approvedStore : Store :=
  { users := [], expenses := [approvedExp], summaries := [] }

/-- src/app/api/expenses/[id]/pay/route.ts, the successful update: the
expense with status REIMBURSED, `paidDate` defaulted to now and
`paidAmount` defaulted to the original amount. -/
def paidUpdate (e : Expense) (paidAmount : Option ℚ) (paidDate : Option Int)
    (now : Int) : Expense :=
  { e with
    status := ExpenseStatus.REIMBURSED,
    paidDate := some (paidDate.getD now),
    paidAmount := some (paidAmount.getD e.amount) }

/-- A user whose only PENDING expense was created before the default
reporting window. -/
def staleStore : Store :=
  { users := [{ id := "u1" }],
    expenses :=
      [{ id := "e1", userId := "u1", description := "stale",
         amount := 1, date := 0, status := ExpenseStatus.PENDING,
         createdAt := 0 }],
    summaries := [] }

/-- A timestamp on epoch day 10 (a Sunday), whose default window starts
at day 8, after `staleStore`'s expense was created. -/
def staleNow : Int := 10 * msPerDay + 456

/-- The snapshot of `exactStore`'s expense "e1" as captured in a
summary. -/
def exactSnap : ExpenseSnapshot :=
  { id := "e1", description := "d1", amount := mkRat 201 2, date := 1,
    status := ExpenseStatus.PENDING }

/-! ## Theorems -/

/-- Claim C1: for every current status, target status and actor role,
`canTransitionTo current target role` is true exactly when `target` is in
the transition table's `allowedNextStatuses` for `current` and the
table's `requiredRole` for `current` is either null or equal to `role`;
in particular from REJECTED and from REIMBURSED every transition is
refused for every role. -/
theorem canTransitionTo_iff_table :
    (∀ current target : ExpenseStatus, ∀ role : Role,
      canTransitionTo current target role = true ↔
        (target ∈ (StatusTransitions current).allowedNextStatuses ∧
          ((StatusTransitions current).requiredRole = none ∨
            (StatusTransitions current).requiredRole = some role))) ∧
    (∀ target : ExpenseStatus, ∀ role : Role,
      canTransitionTo ExpenseStatus.REJECTED target role = false ∧
      canTransitionTo ExpenseStatus.REIMBURSED target role = false) := by
  constructor
  · intro current target role
    cases current <;> cases target <;> cases role <;> decide
  · intro target role
    cases target <;> cases role <;> decide

/-- Claim C2, evaluated at the failing input: `generateUserSummary`
accumulates `totalAmount` with JavaScript binary64 addition, not
decimal-safe summation.  On the spec's own example (100.50 and 200.25,
both exactly representable) the result is exactly 300.75 with count 2;
but on amounts entered as 0.1 and 0.2 the accumulated total is the
double 1351079888211149/2^52, which differs both from the exact sum of
the two stored amounts and from the decimal 0.3. -/
theorem generateUserSummary_float_accumulation :
    ((generateUserSummary exactStore 10 exactOptions).1.map Summary.totalAmount =
      some (mkRat 1203 4)) ∧
    ((generateUserSummary exactStore 10 exactOptions).1.map Summary.expenseCount =
      some 2) ∧
    ((generateUserSummary driftStore 10 driftOptions).1.map Summary.totalAmount =
      some (mkRat 1351079888211149 4503599627370496)) ∧
    mkRat 1351079888211149 4503599627370496 ≠
      fp64round (mkRat 1 10) + fp64round (mkRat 1 5) ∧
    mkRat 1351079888211149 4503599627370496 ≠ mkRat 3 10 := by
  refine ⟨by decide, by decide, by decide, by decide, by decide⟩

/-- Claim C9: `bulkApprovePOST` rejects the empty id list with
InvalidRequest and any list of more than 100 ids with TooManyItems; in
both cases the store is unchanged and the outcome is independent of the
store contents (no expense is read). -/
theorem bulkApprovePOST_size_and_shape (store other : Store)
    (actorId otherActor : String) (ids : List String) (now otherNow : Int) :
    (ids = [] →
      bulkApprovePOST store actorId ids now = (BulkResult.invalidRequest, store)) ∧
    (ids.length > 100 →
      bulkApprovePOST store actorId ids now = (BulkResult.tooManyItems, store)) ∧
    (ids = [] →
      (bulkApprovePOST store actorId ids now).1 =
        (bulkApprovePOST other otherActor ids otherNow).1) ∧
    (ids.length > 100 →
      (bulkApprovePOST store actorId ids now).1 =
        (bulkApprovePOST other otherActor ids otherNow).1) := by
  have hmain : ∀ (st : Store) (a : String) (t : Int),
      (ids = [] → bulkApprovePOST st a ids t = (BulkResult.invalidRequest, st)) ∧
      (ids.length > 100 → bulkApprovePOST st a ids t = (BulkResult.tooManyItems, st)) := by
    intro st a t
    constructor
    · intro h
      simp [bulkApprovePOST, h]
    · intro h
      have hne : ids ≠ [] := by
        intro hnil
        rw [hnil] at h
        simp at h
      simp [bulkApprovePOST, hne, h]
  refine ⟨(hmain store actorId now).1, (hmain store actorId now).2, ?_, ?_⟩
  · intro h
    rw [(hmain store actorId now).1 h, (hmain other otherActor otherNow).1 h]
  · intro h
    rw [(hmain store actorId now).2 h, (hmain other otherActor otherNow).2 h]

/-- Witness for C9 at concrete inputs: the empty list and a list of 101
ids. -/
theorem bulkApprovePOST_size_and_shape_witness :
    bulkApprovePOST ⟨[], [], []⟩ "m" [] 0 = (BulkResult.invalidRequest, ⟨[], [], []⟩) ∧
    bulkApprovePOST ⟨[], [], []⟩ "m" overLimitIds 0 = (BulkResult.tooManyItems, ⟨[], [], []⟩) :=
  ⟨(bulkApprovePOST_size_and_shape ⟨[], [], []⟩ ⟨[], [], []⟩ "m" "m" [] 0 0).1 rfl,
   (bulkApprovePOST_size_and_shape ⟨[], [], []⟩ ⟨[], [], []⟩ "m" "m" overLimitIds 0 0).2.1
     (by decide)⟩

/-- Claim C3, counterexample: with 101 requested ids that are all absent
from the store, the operation fails with TooManyItems, not with NotFound
listing the missing ids — the size check precedes the NotFound check, so
the claim does not hold for every list of ids. -/
theorem bulkApprovePOST_absent_id_beyond_limit :
    overLimitIds.contains "x" = true ∧
    bulkFetched ⟨[], [], []⟩ overLimitIds = [] ∧
    bulkApprovePOST ⟨[], [], []⟩ "m" overLimitIds 0 =
      (BulkResult.tooManyItems, ⟨[], [], []⟩) ∧
    BulkResult.tooManyItems ≠
      BulkResult.notFound (bulkNotFound ⟨[], [], []⟩ overLimitIds) := by
  refine ⟨by decide, by decide, by decide, by decide⟩

/-- Claim C3, amended: for every non-empty list of at most 100 ids, if
some requested id is absent the operation fails with NotFound listing
exactly the absent requested ids and mutates nothing; if every id is
present but some fetched expense is not PENDING it fails with
InvalidState whose failed field holds exactly the offending ids, again
mutating nothing — the NotFound check runs first, and the conditional
bulk update runs only when both checks pass. -/
theorem bulkApprovePOST_all_or_nothing (store : Store) (actorId : String)
    (ids : List String) (now : Int) (hne : ids ≠ []) (hlen : ids.length ≤ 100) :
    (∀ id : String, id ∈ bulkNotFound store ids ↔
      id ∈ ids ∧ ∀ e ∈ store.expenses, e.id ≠ id) ∧
    (bulkNotFound store ids ≠ [] →
      bulkApprovePOST store actorId ids now =
        (BulkResult.notFound (bulkNotFound store ids), store)) ∧
    (bulkNotFound store ids = [] → bulkNotPending store ids ≠ [] →
      bulkApprovePOST store actorId ids now =
        (BulkResult.invalidState ((bulkNotPending store ids).map fun e => e.id),
          store)) ∧
    (bulkNotFound store ids = [] → bulkNotPending store ids = [] →
      (bulkApprovePOST store actorId ids now).1 =
        BulkResult.ok ((store.expenses.filter fun e =>
          ids.contains e.id ∧ e.status = ExpenseStatus.PENDING).length)) := by
  have hlen2 : ¬ ids.length > 100 := by omega
  refine ⟨?_, ?_, ?_, ?_⟩
  · intro id
    simp only [bulkNotFound, bulkFetched, List.mem_filter, List.any_eq_true,
      decide_eq_true_eq, List.elem_eq_mem, Bool.not_eq_true, List.any_eq_false,
      decide_eq_false_iff_not]
    constructor
    · rintro ⟨hid, hno⟩
      refine ⟨hid, ?_⟩
      intro e he heq
      exact hno ⟨e, ⟨he, heq ▸ hid⟩, heq⟩
    · rintro ⟨hid, hall⟩
      refine ⟨hid, ?_⟩
      rintro ⟨e, ⟨he, _hmem⟩, heq⟩
      exact hall e he heq
  · intro h
    simp [bulkApprovePOST, hne, hlen2, h]
  · intro h1 h2
    simp [bulkApprovePOST, hne, hlen2, h1, h2]
  · intro h1 h2
    simp [bulkApprovePOST, hne, hlen2, h1, h2]

/-- Witness for the amended C3 at concrete inputs: requesting a present
PENDING "a" together with an absent "b" fails NotFound on exactly "b"
without mutation, and requesting PENDING "a" with APPROVED "b" fails
InvalidState on exactly "b" without mutation. -/
theorem bulkApprovePOST_all_or_nothing_witness :
    bulkApprovePOST wStoreA "m" ["a", "b"] 0 = (BulkResult.notFound ["b"], wStoreA) ∧
    bulkApprovePOST wStoreB "m" ["a", "b"] 0 = (BulkResult.invalidState ["b"], wStoreB) := by
  constructor
  · have h := (bulkApprovePOST_all_or_nothing wStoreA "m" ["a", "b"] 0
      (by decide) (by decide)).2.1 (by decide)
    have hval : bulkNotFound wStoreA ["a", "b"] = ["b"] := by decide
    rw [hval] at h
    exact h
  · have h := (bulkApprovePOST_all_or_nothing wStoreB "m" ["a", "b"] 0
      (by decide) (by decide)).2.2.1 (by decide) (by decide)
    have hval : (bulkNotPending wStoreB ["a", "b"]).map (fun e => e.id) = ["b"] := by decide
    rw [hval] at h
    exact h

/-- Claim C4: for approve, reject and markPaid, once the handler has
loaded the expense (manager gate passed, body validation passed, record
found), a `canTransitionTo` refusal for the requested target makes the
operation fail with the illegal-transition response and leave the store
unchanged; in particular approving an already-APPROVED expense fails
that way instead of silently succeeding. -/
theorem lifecycle_illegal_transition_no_write (store : Store)
    (actorId : String) (role : Role) (id reason : String)
    (paidAmount : Option ℚ) (paidDate : Option Int) (now : Int)
    (hmgr : isManager role = true) :
    (∀ e, store.expenses.find? (fun x => x.id = id) = some e →
      canTransitionTo e.status ExpenseStatus.APPROVED role = false →
      approvePOST store actorId role id now =
        (RouteResult.illegalTransition, store)) ∧
    (reason.length ≠ 0 → reason.length ≤ 500 →
      ∀ e, store.expenses.find? (fun x => x.id = id) = some e →
      canTransitionTo e.status ExpenseStatus.REJECTED role = false →
      rejectPOST store actorId role id reason now =
        (RouteResult.illegalTransition, store)) ∧
    (paymentValid paidAmount = true →
      ∀ e, store.expenses.find? (fun x => x.id = id) = some e →
      canTransitionTo e.status ExpenseStatus.REIMBURSED role = false →
      payPOST store actorId role id paidAmount paidDate now =
        (RouteResult.illegalTransition, store)) ∧
    (∀ e, store.expenses.find? (fun x => x.id = id) = some e →
      e.status = ExpenseStatus.APPROVED →
      approvePOST store actorId role id now =
        (RouteResult.illegalTransition, store)) := by
  refine ⟨?_, ?_, ?_, ?_⟩
  · intro e hfind htrans
    simp [approvePOST, hmgr, hfind, htrans]
  · intro h0 h500 e hfind htrans
    have hcond : ¬ (reason.length = 0 ∨ reason.length > 500) := by omega
    simp [rejectPOST, hmgr, hcond, hfind, htrans]
  · intro hvalid e hfind htrans
    simp [payPOST, hmgr, hvalid, hfind, htrans]
  · intro e hfind hst
    have htrans : canTransitionTo e.status ExpenseStatus.APPROVED role = false := by
      rw [hst]; cases role <;> decide
    simp [approvePOST, hmgr, hfind, htrans]

/-- Witness for C4 at a concrete input: a second approval of the
already-APPROVED expense "a" fails with the illegal-transition response
and the store is unchanged. -/
theorem lifecycle_illegal_transition_no_write_witness :
    approvePOST approvedStore "m" Role.MANAGER "a" 0 =
      (RouteResult.illegalTransition, approvedStore) :=
  (lifecycle_illegal_transition_no_write approvedStore "m" Role.MANAGER "a" "r"
    none none 0 (by decide)).2.2.2 approvedExp (by decide) (by decide)

/-- Claim C5: the default window start is always midnight of a day, and
per weekday of `now` it is 4 days back on Tuesday (a Friday), 3 days
back on Friday (a Tuesday), `dayOfWeek + 2` days back on Sunday and
Monday (a Friday), `dayOfWeek - 2` days back on Wednesday and Thursday
(a Tuesday), and 1 day back on Saturday (a Friday). -/
theorem getLastSummaryDate_period_cutoff (now : Int) :
    getLastSummaryDate now % msPerDay = 0 ∧
    (dayOfWeek now = 2 →
      dayIndex (getLastSummaryDate now) = dayIndex now - 4 ∧
      dayOfWeek (getLastSummaryDate now) = 5) ∧
    (dayOfWeek now = 5 →
      dayIndex (getLastSummaryDate now) = dayIndex now - 3 ∧
      dayOfWeek (getLastSummaryDate now) = 2) ∧
    (dayOfWeek now = 0 ∨ dayOfWeek now = 1 →
      dayIndex (getLastSummaryDate now) = dayIndex now - (dayOfWeek now + 2) ∧
      dayOfWeek (getLastSummaryDate now) = 5) ∧
    (dayOfWeek now = 3 ∨ dayOfWeek now = 4 →
      dayIndex (getLastSummaryDate now) = dayIndex now - (dayOfWeek now - 2) ∧
      dayOfWeek (getLastSummaryDate now) = 2) ∧
    (dayOfWeek now = 6 →
      dayIndex (getLastSummaryDate now) = dayIndex now - 1 ∧
      dayOfWeek (getLastSummaryDate now) = 5) := by
  have hnz : msPerDay ≠ 0 := by decide
  have hcancel : ∀ m : Int, dayIndex (m * msPerDay) = m := by
    intro m
    show (m * msPerDay).fdiv msPerDay = m
    exact Int.mul_fdiv_cancel m hnz
  have hmod : getLastSummaryDate now % msPerDay = 0 := by
    show ((dayIndex now - daysBack (dayOfWeek now)) * msPerDay) % msPerDay = 0
    exact Int.mul_emod_left _ _
  have hstep : ∀ w : Int, dayOfWeek now = w →
      dayIndex (getLastSummaryDate now) = dayIndex now - daysBack w ∧
      dayOfWeek (getLastSummaryDate now) =
        (dayIndex now - daysBack w + 4) % 7 := by
    intro w hw
    constructor
    · show dayIndex ((dayIndex now - daysBack (dayOfWeek now)) * msPerDay) =
        dayIndex now - daysBack w
      rw [hw, hcancel]
    · show (dayIndex ((dayIndex now - daysBack (dayOfWeek now)) * msPerDay) + 4) % 7 =
        (dayIndex now - daysBack w + 4) % 7
      rw [hw, hcancel]
  refine ⟨hmod, ?_, ?_, ?_, ?_, ?_⟩
  · intro h
    obtain ⟨h1, h2⟩ := hstep 2 h
    have hdb : daysBack 2 = 4 := by decide
    have hw : (dayIndex now + 4) % 7 = 2 := h
    rw [hdb] at h1 h2
    exact ⟨h1, by rw [h2]; omega⟩
  · intro h
    obtain ⟨h1, h2⟩ := hstep 5 h
    have hdb : daysBack 5 = 3 := by decide
    have hw : (dayIndex now + 4) % 7 = 5 := h
    rw [hdb] at h1 h2
    exact ⟨h1, by rw [h2]; omega⟩
  · rintro (h | h)
    · obtain ⟨h1, h2⟩ := hstep 0 h
      have hdb : daysBack 0 = 2 := by decide
      have hw : (dayIndex now + 4) % 7 = 0 := h
      rw [hdb] at h1 h2
      rw [h]
      exact ⟨by omega, by rw [h2]; omega⟩
    · obtain ⟨h1, h2⟩ := hstep 1 h
      have hdb : daysBack 1 = 3 := by decide
      have hw : (dayIndex now + 4) % 7 = 1 := h
      rw [hdb] at h1 h2
      rw [h]
      exact ⟨by omega, by rw [h2]; omega⟩
  · rintro (h | h)
    · obtain ⟨h1, h2⟩ := hstep 3 h
      have hdb : daysBack 3 = 1 := by decide
      have hw : (dayIndex now + 4) % 7 = 3 := h
      rw [hdb] at h1 h2
      rw [h]
      exact ⟨by omega, by rw [h2]; omega⟩
    · obtain ⟨h1, h2⟩ := hstep 4 h
      have hdb : daysBack 4 = 2 := by decide
      have hw : (dayIndex now + 4) % 7 = 4 := h
      rw [hdb] at h1 h2
      rw [h]
      exact ⟨by omega, by rw [h2]; omega⟩
  · intro h
    obtain ⟨h1, h2⟩ := hstep 6 h
    have hdb : daysBack 6 = 1 := by decide
    have hw : (dayIndex now + 4) % 7 = 6 := h
    rw [hdb] at h1 h2
    exact ⟨h1, by rw [h2]; omega⟩

/-- Witness for C5 at concrete times: a Wednesday (day 6 of the epoch)
whose default window start is the preceding Tuesday at midnight, and a
Sunday (day 10) whose default window start is the preceding Friday at
midnight. -/
theorem getLastSummaryDate_period_cutoff_witness :
    dayOfWeek (6 * msPerDay + 123) = 3 ∧
    dayIndex (getLastSummaryDate (6 * msPerDay + 123)) = 5 ∧
    dayOfWeek (getLastSummaryDate (6 * msPerDay + 123)) = 2 ∧
    dayOfWeek (10 * msPerDay + 456) = 0 ∧
    dayIndex (getLastSummaryDate (10 * msPerDay + 456)) = 8 ∧
    dayOfWeek (getLastSummaryDate (10 * msPerDay + 456)) = 5 := by
  have hwed := (getLastSummaryDate_period_cutoff (6 * msPerDay + 123)).2.2.2.2.1
    (Or.inl (by decide))
  have hsun := (getLastSummaryDate_period_cutoff (10 * msPerDay + 456)).2.2.2.1
    (Or.inl (by decide))
  refine ⟨by decide, ?_, hwed.2, by decide, ?_, hsun.2⟩
  · rw [hwed.1]; decide
  · rw [hsun.1]; decide

/-- Claim C8: markPaid by a manager on an APPROVED expense answers with
the expense updated to REIMBURSED, `paidAmount` the supplied value or
the original amount when omitted, `paidDate` the supplied date or now
when omitted, and writes exactly that row. -/
theorem payPOST_marks_paid (store : Store) (actorId : String) (role : Role)
    (id : String) (paidAmount : Option ℚ) (paidDate : Option Int) (now : Int)
    (e : Expense) (hmgr : isManager role = true)
    (hvalid : paymentValid paidAmount = true)
    (hfind : store.expenses.find? (fun x => x.id = id) = some e)
    (hst : e.status = ExpenseStatus.APPROVED) :
    payPOST store actorId role id paidAmount paidDate now =
      (RouteResult.ok (paidUpdate e paidAmount paidDate now),
        updateExpense store (paidUpdate e paidAmount paidDate now)) ∧
    (paidUpdate e paidAmount paidDate now).status = ExpenseStatus.REIMBURSED ∧
    (paidAmount = none →
      (paidUpdate e paidAmount paidDate now).paidAmount = some e.amount) ∧
    (∀ a : ℚ, paidAmount = some a →
      (paidUpdate e paidAmount paidDate now).paidAmount = some a) ∧
    (paidDate = none →
      (paidUpdate e paidAmount paidDate now).paidDate = some now) ∧
    (∀ d : Int, paidDate = some d →
      (paidUpdate e paidAmount paidDate now).paidDate = some d) := by
  have htrans : canTransitionTo e.status ExpenseStatus.REIMBURSED role = true := by
    rw [hst]
    cases role with
    | EMPLOYEE => simp [isManager] at hmgr
    | MANAGER => decide
  refine ⟨?_, rfl, ?_, ?_, ?_, ?_⟩
  · simp [payPOST, hmgr, hvalid, hfind, htrans, paidUpdate]
  · intro h; rw [h]; rfl
  · intro a h; rw [h]; rfl
  · intro h; rw [h]; rfl
  · intro d h; rw [h]; rfl

/-- Witness for C8 at a concrete input: paying the APPROVED expense "a"
with both fields omitted stamps status REIMBURSED, the original amount
and the current time. -/
theorem payPOST_marks_paid_witness :
    payPOST approvedStore "m" Role.MANAGER "a" none none 7 =
      (RouteResult.ok (paidUpdate approvedExp none none 7),
        updateExpense approvedStore (paidUpdate approvedExp none none 7)) :=
  (payPOST_marks_paid approvedStore "m" Role.MANAGER "a" none none 7 approvedExp
    (by decide) (by decide) (by decide) (by decide)).1

/-- The insertion sort of a list is empty exactly when the list is. -/
theorem insertionSort_eq_nil_iff {α : Type} (r : α → α → Prop) [DecidableRel r]
    (l : List α) : l.insertionSort r = [] ↔ l = [] := by
  constructor
  · intro h
    have hlen := (List.perm_insertionSort r l).length_eq
    rw [h] at hlen
    exact List.length_eq_zero.mp hlen.symm
  · intro h
    rw [h]
    rfl

/-- Case analysis for `generateUserSummary`: either the result is null
and the store is untouched — which happens exactly when the user lookup
fails or no PENDING expense is in range — or the user was found, some
PENDING expense is in range, and the one built summary row is
appended. -/
theorem generateUserSummary_shape (store : Store) (now : Int)
    (options : GenerateSummaryOptions) :
    (generateUserSummary store now options = (none, store) ∧
      (store.users.find? (fun u => u.id = options.userId) = none ∨
        pendingInRange store options.userId (resolvedStart now options)
          (resolvedEnd now options) = [])) ∨
    (∃ u, store.users.find? (fun x => x.id = options.userId) = some u ∧
      pendingInRange store options.userId (resolvedStart now options)
        (resolvedEnd now options) ≠ [] ∧
      generateUserSummary store now options =
        (some (builtSummary options (resolvedStart now options)
            (resolvedEnd now options)
            (selectedExpenses store options.userId (resolvedStart now options)
              (resolvedEnd now options))),
          { store with summaries := store.summaries ++
              [builtSummary options (resolvedStart now options)
                (resolvedEnd now options)
                (selectedExpenses store options.userId
                  (resolvedStart now options) (resolvedEnd now options))] })) := by
  cases hf : store.users.find? (fun u => u.id = options.userId) with
  | none =>
    left
    refine ⟨?_, Or.inl rfl⟩
    simp [generateUserSummary, hf]
  | some u =>
    by_cases he : selectedExpenses store options.userId (resolvedStart now options)
        (resolvedEnd now options) = []
    · left
      refine ⟨?_, Or.inr ?_⟩
      · simp [generateUserSummary, hf, he]
      · exact (insertionSort_eq_nil_iff _ _).mp he
    · right
      refine ⟨u, rfl, ?_, ?_⟩
      · intro hnil
        apply he
        unfold selectedExpenses
        rw [hnil]
        rfl
      · simp [generateUserSummary, hf, he]

/-- Claim C7: `generateUserSummary` returns null and writes nothing when
the user is absent or when no PENDING expense of the user has its
creation time inside the resolved window; and it appends exactly one
summary row exactly when such an expense exists (the store satisfying
the foreign-key invariant that every expense's user exists). -/
theorem generateUserSummary_row_iff_pending (store : Store) (now : Int)
    (options : GenerateSummaryOptions)
    (hFK : ∀ e ∈ store.expenses, ∃ u ∈ store.users, u.id = e.userId) :
    (store.users.find? (fun u => u.id = options.userId) = none →
      generateUserSummary store now options = (none, store)) ∧
    ((generateUserSummary store now options).1 = none ↔
      pendingInRange store options.userId (resolvedStart now options)
        (resolvedEnd now options) = []) ∧
    ((generateUserSummary store now options).1 = none →
      (generateUserSummary store now options).2 = store) ∧
    (∀ s, (generateUserSummary store now options).1 = some s →
      (generateUserSummary store now options).2 =
        { store with summaries := store.summaries ++ [s] }) := by
  have hfk2 : store.users.find? (fun u => u.id = options.userId) = none →
      pendingInRange store options.userId (resolvedStart now options)
        (resolvedEnd now options) = [] := by
    intro hnone
    unfold pendingInRange
    rw [List.filter_eq_nil_iff]
    intro e he
    simp only [decide_eq_true_eq, not_and]
    intro huid _
    obtain ⟨u, hu, huid2⟩ := hFK e he
    have := List.find?_eq_none.mp hnone u hu
    simp [huid2, huid] at this
  rcases generateUserSummary_shape store now options with
    ⟨heq, hnone | hpend⟩ | ⟨u, hf, hne, heq⟩
  · refine ⟨fun _ => heq, ?_, ?_, ?_⟩
    · rw [heq]
      simp only [true_iff]
      exact hfk2 hnone
    · intro _
      rw [heq]
    · intro s hs
      rw [heq] at hs
      simp at hs
  · refine ⟨fun _ => heq, ?_, ?_, ?_⟩
    · rw [heq]
      simp [hpend]
    · intro _
      rw [heq]
    · intro s hs
      rw [heq] at hs
      simp at hs
  · refine ⟨?_, ?_, ?_, ?_⟩
    · intro hnone
      rw [hnone] at hf
      exact absurd hf (by simp)
    · rw [heq]
      simp [hne]
    · intro habs
      rw [heq] at habs
      simp at habs
    · intro s hs
      rw [heq] at hs
      simp only [Option.some.injEq] at hs
      rw [heq, ← hs]

/-- Witness for C7 at a concrete input: for the store with two PENDING
expenses in range, the call appends exactly the one built summary
row. -/
theorem generateUserSummary_row_iff_pending_witness :
    (generateUserSummary exactStore 10 exactOptions).2 =
      { exactStore with summaries := exactStore.summaries ++
          [builtSummary exactOptions (resolvedStart 10 exactOptions)
            (resolvedEnd 10 exactOptions)
            (selectedExpenses exactStore exactOptions.userId
              (resolvedStart 10 exactOptions) (resolvedEnd 10 exactOptions))] } :=
  (generateUserSummary_row_iff_pending exactStore 10 exactOptions
    (by decide)).2.2.2 _ (by decide)

/-- Claim C10: every expense snapshot embedded in a summary created by
`generateUserSummary` has status PENDING, because the selection filters
on status PENDING and the snapshots copy the status at capture time. -/
theorem summary_snapshots_all_pending (store : Store) (now : Int)
    (options : GenerateSummaryOptions) (s : Summary)
    (h : (generateUserSummary store now options).1 = some s) :
    ∀ snap ∈ s.expenses, snap.status = ExpenseStatus.PENDING := by
  rcases generateUserSummary_shape store now options with
    ⟨heq, _⟩ | ⟨u, hf, hne, heq⟩
  · rw [heq] at h
    simp at h
  · rw [heq] at h
    simp only [Option.some.injEq] at h
    intro snap hsnap
    rw [← h] at hsnap
    simp only [builtSummary, summarySnapshots, List.mem_map] at hsnap
    obtain ⟨e, he, hsnapEq⟩ := hsnap
    have he2 : e ∈ pendingInRange store options.userId (resolvedStart now options)
        (resolvedEnd now options) :=
      (List.perm_insertionSort _ _).mem_iff.mp he
    have he3 := (List.mem_filter.mp he2).2
    simp only [decide_eq_true_eq] at he3
    rw [← hsnapEq]
    exact he3.2.1

/-- Witness for C10 at a concrete input: the snapshot of expense "e1"
captured from `exactStore` has status PENDING. -/
theorem summary_snapshots_all_pending_witness :
    exactSnap.status = ExpenseStatus.PENDING :=
  summary_snapshots_all_pending exactStore 10 exactOptions
    (builtSummary exactOptions (resolvedStart 10 exactOptions)
      (resolvedEnd 10 exactOptions)
      (selectedExpenses exactStore exactOptions.userId
        (resolvedStart 10 exactOptions) (resolvedEnd 10 exactOptions)))
    (by decide) exactSnap (by decide)

/-- Claim C6, counterexample: the user "u1" of `staleStore` has a
PENDING expense, yet `generateAllPendingSummaries` returns no summary at
all for the store, because the user query checks for any PENDING expense
with no date condition while the per-user generation then filters on the
default reporting window, which started after this expense was
created. -/
theorem generateAllPendingSummaries_misses_stale_pending :
    (staleStore.expenses.any fun e =>
      e.userId = "u1" ∧ e.status = ExpenseStatus.PENDING) = true ∧
    "u1" ∈ staleStore.users.map User.id ∧
    (generateAllPendingSummaries staleStore staleNow
      SummaryTriggerType.SCHEDULED).1 = [] := by
  refine ⟨by decide, by decide, by decide⟩

/-- Claim C6, amended: `generateAllPendingSummaries` returns, in user
order, exactly one summary per user row having at least one PENDING
expense whose creation time lies inside the default reporting window
(`getLastSummaryDate now` to `now`), and no entry for any other user —
the user set comes from the date-free existence check, the per-user
generation runs sequentially, and only non-null results are kept. -/
theorem generateAllPendingSummaries_per_user (store : Store) (now : Int)
    (triggerType : SummaryTriggerType) :
    ((generateAllPendingSummaries store now triggerType).1.map Summary.userId) =
      ((store.users.filter fun u =>
        pendingInRange store u.id (getLastSummaryDate now) now ≠ []).map User.id) := by
  have hstep : ∀ (st : Store) (u : User), st.users = store.users →
      st.expenses = store.expenses → u ∈ store.users →
      (pendingInRange store u.id (getLastSummaryDate now) now = [] →
        generateUserSummary st now { userId := u.id, triggerType := triggerType } =
          (none, st)) ∧
      (pendingInRange store u.id (getLastSummaryDate now) now ≠ [] →
        ∃ s2, generateUserSummary st now
            { userId := u.id, triggerType := triggerType } =
          (some s2, { st with summaries := st.summaries ++ [s2] }) ∧
          s2.userId = u.id) := by
    intro st u h1 h2 hu
    have hpr : pendingInRange st u.id (getLastSummaryDate now) now =
        pendingInRange store u.id (getLastSummaryDate now) now := by
      unfold pendingInRange
      rw [h2]
    rcases generateUserSummary_shape st now
        { userId := u.id, triggerType := triggerType } with
      ⟨heq, hcase⟩ | ⟨v, hf, hne, heq⟩
    · refine ⟨fun _ => heq, ?_⟩
      intro hnonempty
      exfalso
      rcases hcase with hfnone | hpend
      · have := List.find?_eq_none.mp hfnone u (h1 ▸ hu)
        simp at this
      · apply hnonempty
        rw [← hpr]
        exact hpend
    · refine ⟨?_, ?_⟩
      · intro hemp
        exfalso
        apply hne
        show pendingInRange st u.id (getLastSummaryDate now) now = []
        rw [hpr]
        exact hemp
      · intro _
        exact ⟨_, heq, rfl⟩
  have hfold : ∀ (us : List User) (acc : List Summary) (st : Store),
      st.users = store.users → st.expenses = store.expenses →
      (∀ u ∈ us, u ∈ store.users) →
      ((us.foldl (collectStep now triggerType) (acc, st)).1.map Summary.userId) =
        acc.map Summary.userId ++
          ((us.filter fun u =>
            pendingInRange store u.id (getLastSummaryDate now) now ≠ []).map User.id) := by
    intro us
    induction us with
    | nil =>
      intro acc st _ _ _
      simp
    | cons u rest ih =>
      intro acc st h1 h2 h3
      have hu : u ∈ store.users := h3 u (by simp)
      by_cases hp : pendingInRange store u.id (getLastSummaryDate now) now = []
      · have hnone := (hstep st u h1 h2 hu).1 hp
        have hcoll : collectStep now triggerType (acc, st) u = (acc, st) := by
          simp [collectStep, hnone]
        rw [List.foldl_cons, hcoll,
          ih acc st h1 h2 (fun v hv => h3 v (by simp [hv]))]
        simp [List.filter_cons, hp]
      · obtain ⟨s2, heq, hsid⟩ := (hstep st u h1 h2 hu).2 hp
        have hcoll : collectStep now triggerType (acc, st) u =
            (acc ++ [s2], { st with summaries := st.summaries ++ [s2] }) := by
          simp [collectStep, heq]
        rw [List.foldl_cons, hcoll,
          ih (acc ++ [s2]) { st with summaries := st.summaries ++ [s2] } h1 h2
            (fun v hv => h3 v (by simp [hv]))]
        simp [List.filter_cons, hp, hsid]
  have hff : (usersWithPending store).filter
      (fun u => pendingInRange store u.id (getLastSummaryDate now) now ≠ []) =
      store.users.filter
      (fun u => pendingInRange store u.id (getLastSummaryDate now) now ≠ []) := by
    unfold usersWithPending
    rw [List.filter_filter]
    apply List.filter_congr
    intro u _
    by_cases hp : pendingInRange store u.id (getLastSummaryDate now) now = []
    · simp [hp]
    · obtain ⟨e, he⟩ := List.exists_mem_of_ne_nil _ hp
      have hm := List.mem_filter.mp he
      simp only [decide_eq_true_eq] at hm
      have hany : (store.expenses.any fun e =>
          e.userId = u.id ∧ e.status = ExpenseStatus.PENDING) = true := by
        rw [List.any_eq_true]
        exact ⟨e, hm.1, by simp [hm.2.1, hm.2.2.1]⟩
      simp only [hany, Bool.and_true]
  have hsub : ∀ u ∈ usersWithPending store, u ∈ store.users := by
    intro u hu
    exact (List.mem_filter.mp hu).1
  unfold generateAllPendingSummaries
  rw [hfold (usersWithPending store) [] store rfl rfl hsub, hff]
  simp

end Reimbursement
